import Mathlib

/-!
Shallow embedding of `src/main.py`: a FastAPI service persisting four
MongoDB collections (snapshots, steps, transactions, logs) with
capacity-bounded insertion, point lookup by logical id, paged and
filtered listing, and bulk deletion.

The MongoDB backend is modelled as a list of documents in natural
(insertion) order.  Each document carries a backend `_id` (field `oid`),
assigned from a per-collection monotone counter, which models the
uniqueness and insertion-ordering of Mongo ObjectIds.  Mongo cursor
semantics relevant to the endpoints are reproduced exactly:
`limit(0)` means "no limit", `limit(n)` with `n < 0` returns at most
`|n|` documents (a single capped batch), `sort(field, 1)` is an
ascending sort (modelled stable, ties kept in insertion order), and
`skip(n)` with `n < 0` raises `ValueError` inside the driver, which the
endpoint does not catch (an unhandled exception, surfaced by the
transport as a 500 internal error, not as a 400/422 argument error).
-/

/-- Document resident in a collection: backend `_id` (`oid`) plus the record body. -/
structure Doc (α : Type) where
  oid : Nat
  body : α
  deriving DecidableEq

/-- One MongoDB collection: resident documents in backend natural order
(insertion order), plus the counter handing out fresh backend ids. -/
structure Coll (α : Type) where
  docs : List (Doc α)
  nextOid : Nat
  deriving DecidableEq

/-- Result of `collection.count_documents(\x7b\x7d)`. -/
def countDocuments (c : Coll α) : Nat :=
  c.docs.length

/-- Stable insertion of a document into a list already sorted ascending by `key`:
the new document goes before the first strictly-not-smaller element it does not
precede, so equal keys keep their relative (insertion) order. -/
def insertSorted (key : Doc α → Int) (d : Doc α) : List (Doc α) → List (Doc α)
  | [] => [d]
  | e :: es => if key d ≤ key e then d :: e :: es else e :: insertSorted key d es

/-- Result of `collection.find().sort(field, 1)`: ascending sort by `key`,
stable (ties broken by backend insertion order). -/
def sortByKey (key : Doc α → Int) : List (Doc α) → List (Doc α)
  | [] => []
  | d :: ds => insertSorted key d (sortByKey key ds)

/-- Result of `.limit(n)` on a cursor for a non-negative argument:
`limit(0)` is MongoDB for "no limit", otherwise at most `n` documents. -/
def mongoLimit (n : Nat) (l : List α) : List α :=
  if n = 0 then l else l.take n

/-- Result of `.limit(n)` on a cursor for an arbitrary integer argument:
`limit(0)` means no limit; pymongo accepts a negative `n`, which instructs
the server to return at most `|n|` documents in a single batch. -/
def mongoLimitInt (n : Int) (l : List α) : List α :=
  if n = 0 then l else l.take n.natAbs

/-- Result of `collection.delete_many(\x7b"_id": \x7b"$in": ids\x7d\x7d)`:
removes every resident document whose backend id is in `ids` and reports
`deleted_count`, the number of documents actually removed. -/
def deleteByIds (ids : List Nat) (c : Coll α) : Nat × Coll α :=
  let kept := c.docs.filter fun d => decide (d.oid ∉ ids)
  (c.docs.length - kept.length, { docs := kept, nextOid := c.nextOid })

/-- Result of `collection.insert_one(x)`: append at the end of natural order
with a fresh backend id. -/
def insertOne (x : α) (c : Coll α) : Coll α :=
  { docs := c.docs ++ [⟨c.nextOid, x⟩], nextOid := c.nextOid + 1 }

/-- Result of `collection.find_one(filter)`: the first document in natural
order whose body satisfies `p`, if any. -/
def findOne (p : α → Bool) (c : Coll α) : Option (Doc α) :=
  c.docs.find? fun d => p d.body

/-- Capped insert shared by the four POST endpoints: if occupancy is at or
over `cap`, fetch the `chunk` documents with the smallest `key`
(`find().sort(field, 1).limit(chunk)`), delete them by backend id, then
insert the new record. -/
def insertWithEviction (cap chunk : Nat) (key : Doc α → Int) (x : α) (c : Coll α) :
    Coll α :=
  let c' :=
    if cap ≤ countDocuments c then
      (deleteByIds ((mongoLimit chunk (sortByKey key c.docs)).map Doc.oid) c).2
    else c
  insertOne x c'

/-- Node model from the source (`class Node`). -/
structure Node where
  type : String
  name : String
  deriving DecidableEq

/-- Message model from the source (`class Message`); `payload` is `Any` in the
source and is modelled as an opaque string, no claim inspects it. -/
structure Message where
  _msgid : String
  payload : String
  topic : String
  _firstnode : String
  _previousnode : Option String := none
  _lastnode : Option String := none
  deriving DecidableEq

/-- Snapshot model from the source (`class Snapshot`). -/
structure Snapshot where
  id : String
  transaction : String
  node : Node
  createdAt : Int
  msg : Message
  deriving DecidableEq

/-- Step model from the source (`class Step`). -/
structure Step where
  id : String
  topic : String
  node : Node
  transaction : String
  createdAt : Int
  snapshotId : String
  deriving DecidableEq

/-- Log model from the source (`class Log`). -/
structure Log where
  id : String
  deriving DecidableEq

/-- Transaction model from the source (`class Transaction`); `end` is a Lean
keyword, so the field is written `«end»`. -/
structure Transaction where
  id : String
  start : Int
  «end» : Int
  receiver : List String
  sender : String
  logs : List Log := []
  deriving DecidableEq

def max_size_transactions_collection : Nat := 3

def chunk_size_to_delete_from_transactions_collection : Nat := 1

def max_size_steps_collection : Nat := 50

def chunk_size_to_delete_from_steps_collection : Nat := 1

def max_size_snapshots_collection : Nat := 50

def chunk_size_to_delete_from_snapshots_collection : Nat := 1

def max_size_log_collection : Nat := 50

def chunk_size_to_delete_from_log_collection : Nat := 1

/-- Persistent state of the service: the four independent collections. -/
structure AppState where
  snapshots : Coll Snapshot
  steps : Coll Step
  transactions : Coll Transaction
  logs : Coll Log
  deriving DecidableEq

/-- Errors surfaced by the endpoints: `notFound` is an `HTTPException(404)`,
`invalidArgument` an `HTTPException(400)` (or a 422 request-validation error),
and `valueError` an exception raised inside the pymongo driver that no
endpoint catches, surfaced by the transport as a 500 internal error. -/
inductive ApiError
  | notFound
  | invalidArgument
  | valueError
  deriving DecidableEq

/-- Endpoint `POST /snapshots` (`create_snapshot`): capped insert into the
snapshot collection, oldest-by-`createdAt` evicted first. -/
def create_snapshot (snapshot : Snapshot) (s : AppState) : AppState :=
  { s with
    snapshots :=
      insertWithEviction max_size_snapshots_collection
        chunk_size_to_delete_from_snapshots_collection
        (fun d => d.body.createdAt) snapshot s.snapshots }

/-- Endpoint `POST /steps` (`create_step`): capped insert into the step
collection, oldest-by-`createdAt` evicted first. -/
def create_step (step : Step) (s : AppState) : AppState :=
  { s with
    steps :=
      insertWithEviction max_size_steps_collection
        chunk_size_to_delete_from_steps_collection
        (fun d => d.body.createdAt) step s.steps }

/-- Endpoint `POST /transactions` (`create_transaction`): capped insert into
the transaction collection, oldest-by-`start` evicted first. -/
def create_transaction (transaction : Transaction) (s : AppState) : AppState :=
  { s with
    transactions :=
      insertWithEviction max_size_transactions_collection
        chunk_size_to_delete_from_transactions_collection
        (fun d => d.body.start) transaction s.transactions }

/-- Endpoint `POST /logs` (`create_log`): capped insert into the log
collection; the sort field is the backend `_id`, i.e. insertion order. -/
def create_log (log : Log) (s : AppState) : AppState :=
  { s with
    logs :=
      insertWithEviction max_size_log_collection
        chunk_size_to_delete_from_log_collection
        (fun d => (d.oid : Int)) log s.logs }

/-- Endpoint `GET /snapshots` (`get_all_snapshots`): every resident snapshot
in natural order. -/
def get_all_snapshots (s : AppState) : List Snapshot :=
  s.snapshots.docs.map Doc.body

/-- Endpoint `GET /snapshots/\x7bsnapshot_id\x7d` (`get_snapshot`):
`find_one` on the logical id, 404 when absent. -/
def get_snapshot (snapshot_id : String) (s : AppState) : Except ApiError Snapshot :=
  match findOne (fun x => x.id == snapshot_id) s.snapshots with
  | none => .error .notFound
  | some d => .ok d.body

/-- Endpoint `GET /steps/\x7bstep_id\x7d` (`get_step`). -/
def get_step (step_id : String) (s : AppState) : Except ApiError Step :=
  match findOne (fun x => x.id == step_id) s.steps with
  | none => .error .notFound
  | some d => .ok d.body

/-- Endpoint `GET /logs/\x7blog_id\x7d` (`get_log`). -/
def get_log (log_id : String) (s : AppState) : Except ApiError Log :=
  match findOne (fun x => x.id == log_id) s.logs with
  | none => .error .notFound
  | some d => .ok d.body

/-- Result shape of `GET /transactions/\x7bid\x7d` and of each element of
`GET /transactions`: the transaction record with its steps attached under
the extra `steps` key. -/
structure TransactionWithSteps where
  transaction : Transaction
  steps : List Step
  deriving DecidableEq

/-- Fragment `step_collection.find(\x7b"transaction": x\x7d)` used by both
transaction read endpoints: the resident steps whose `transaction` field
equals `x`, in natural order. -/
def listStepsByTransaction (x : String) (s : AppState) : List Step :=
  (s.steps.docs.filter fun d => d.body.transaction == x).map Doc.body

/-- Endpoint `GET /transactions/\x7btransaction_id\x7d` (`get_transaction`):
`find_one` on the logical id, 404 when absent, otherwise the record with
the matching steps attached. -/
def get_transaction (transaction_id : String) (s : AppState) :
    Except ApiError TransactionWithSteps :=
  match findOne (fun x => x.id == transaction_id) s.transactions with
  | none => .error .notFound
  | some d => .ok ⟨d.body, listStepsByTransaction transaction_id s⟩

/-- Endpoint `GET /transactions?count&offset` (`get_all_transactions`):
`find().skip(offset).limit(count)` on the transaction collection, then the
same step attachment as `get_transaction` for every returned record.
pymongo's `skip` raises `ValueError` on a negative argument (uncaught,
hence a 500); a negative `count` is accepted by `limit`. -/
def get_all_transactions (count : Int) (offset : Int) (s : AppState) :
    Except ApiError (List TransactionWithSteps) :=
  if offset < 0 then .error .valueError
  else
    .ok ((mongoLimitInt count (s.transactions.docs.drop offset.natAbs)).map
      fun d => ⟨d.body, listStepsByTransaction d.body.id s⟩)

/-- Endpoint `GET /transactions/\x7btransaction_id\x7d/snapshots`
(`get_snapshots_for_transaction`): the resident snapshots whose
`transaction` field matches; an empty result is reinterpreted as 404. -/
def get_snapshots_for_transaction (transaction_id : String) (s : AppState) :
    Except ApiError (List Snapshot) :=
  let snapshots :=
    (s.snapshots.docs.filter fun d => d.body.transaction == transaction_id).map Doc.body
  if snapshots.isEmpty then .error .notFound else .ok snapshots

/-- Bulk deletion on one collection as performed by `delete_entries`:
`find().limit(n)` (natural order; `limit(0)` means no limit), collect the
backend ids, `delete_many` them, report `deleted_count`. -/
def deleteFirstN (n : Nat) (c : Coll α) : Nat × Coll α :=
  deleteByIds ((mongoLimit n c.docs).map Doc.oid) c

/-- Endpoint `DELETE /delete?number_of_entries&collection_name`
(`delete_entries`): dispatch on the collection name, 400 (and no mutation)
for a name outside the four known collections, otherwise bulk-delete and
report the deleted count. -/
def delete_entries (number_of_entries : Nat) (collection_name : String)
    (s : AppState) : Except ApiError Nat × AppState :=
  if collection_name = "snapshots" then
    let r := deleteFirstN number_of_entries s.snapshots
    (.ok r.1, { s with snapshots := r.2 })
  else if collection_name = "steps" then
    let r := deleteFirstN number_of_entries s.steps
    (.ok r.1, { s with steps := r.2 })
  else if collection_name = "transactions" then
    let r := deleteFirstN number_of_entries s.transactions
    (.ok r.1, { s with transactions := r.2 })
  else if collection_name = "logs" then
    let r := deleteFirstN number_of_entries s.logs
    (.ok r.1, { s with logs := r.2 })
  else
    (.error .invalidArgument, s)

/-- State of a fresh deployment: all four collections empty. -/
def initState : AppState :=
  ⟨⟨[], 0⟩, ⟨[], 0⟩, ⟨[], 0⟩, ⟨[], 0⟩⟩

/-- Inserting into a sorted list is a permutation of consing. -/
theorem insertSorted_perm (key : Doc α → Int) (d : Doc α) (l : List (Doc α)) :
    List.Perm (insertSorted key d l) (d :: l) := by
  induction l with
  | nil => rfl
  | cons e es ih =>
    simp only [insertSorted]
    split
    · exact List.Perm.refl _
    · exact (ih.cons e).trans (List.Perm.swap d e es)

/-- Sorting is a permutation. -/
theorem sortByKey_perm (key : Doc α → Int) (l : List (Doc α)) :
    List.Perm (sortByKey key l) l := by
  induction l with
  | nil => rfl
  | cons d ds ih =>
    exact (insertSorted_perm key d (sortByKey key ds)).trans (ih.cons d)

/-- Stable insertion preserves sortedness by `key`. -/
theorem insertSorted_pairwise (key : Doc α → Int) (d : Doc α) (l : List (Doc α))
    (h : l.Pairwise fun a b => key a ≤ key b) :
    (insertSorted key d l).Pairwise fun a b => key a ≤ key b := by
  induction l with
  | nil => simp [insertSorted]
  | cons e es ih =>
    rw [List.pairwise_cons] at h
    simp only [insertSorted]
    split
    · rename_i hde
      refine List.pairwise_cons.mpr ⟨?_, List.pairwise_cons.mpr h⟩
      intro b hb
      rcases List.mem_cons.mp hb with rfl | hb
      · exact hde
      · exact le_trans hde (h.1 b hb)
    · rename_i hde
      refine List.pairwise_cons.mpr ⟨?_, ih h.2⟩
      intro b hb
      rcases List.mem_cons.mp ((insertSorted_perm key d es).mem_iff.mp hb) with rfl | hb
      · exact le_of_not_le hde
      · exact h.1 b hb

/-- The output of `sortByKey` is sorted ascending by `key`. -/
theorem sortByKey_pairwise (key : Doc α → Int) (l : List (Doc α)) :
    (sortByKey key l).Pairwise fun a b => key a ≤ key b := by
  induction l with
  | nil => exact List.Pairwise.nil
  | cons d ds ih => exact insertSorted_pairwise key d (sortByKey key ds) ih

/-- Deleting by the backend ids of a prefix of a duplicate-free list keeps
exactly the rest of the list. -/
theorem filter_notMem_oids_append (A B : List (Doc α))
    (h : ((A ++ B).map Doc.oid).Nodup) :
    ((A ++ B).filter fun d => decide (d.oid ∉ A.map Doc.oid)) = B := by
  rw [List.map_append, List.nodup_append] at h
  rw [List.filter_append]
  have hA : (A.filter fun d => decide (d.oid ∉ A.map Doc.oid)) = [] := by
    rw [List.filter_eq_nil_iff]
    intro a ha
    simp only [decide_eq_true_eq, not_not]
    exact List.mem_map_of_mem Doc.oid ha
  have hB : (B.filter fun d => decide (d.oid ∉ A.map Doc.oid)) = B := by
    rw [List.filter_eq_self]
    intro b hb
    simp only [decide_eq_true_eq]
    intro hmem
    exact h.2.2 hmem (List.mem_map_of_mem Doc.oid hb)
  rw [hA, hB, List.nil_append]

/-- Filtering a sorted duplicate-free list by "backend id not among the first
`chunk`" keeps exactly the part after the first `chunk`. -/
theorem filter_sorted_drop (key : Doc α → Int) (chunk : Nat) (l : List (Doc α))
    (hnd : (l.map Doc.oid).Nodup) :
    ((sortByKey key l).filter fun d =>
        decide (d.oid ∉ ((sortByKey key l).take chunk).map Doc.oid))
      = (sortByKey key l).drop chunk := by
  have hnd' : ((sortByKey key l).map Doc.oid).Nodup :=
    ((sortByKey_perm key l).map Doc.oid).nodup_iff.mpr hnd
  have h := filter_notMem_oids_append ((sortByKey key l).take chunk)
    ((sortByKey key l).drop chunk)
    (by rw [List.take_append_drop]; exact hnd')
  rw [List.take_append_drop] at h
  exact h

/-- The documents an eviction event keeps are, up to order, the sorted list
with its first `chunk` elements removed. -/
theorem kept_perm (key : Doc α → Int) (chunk : Nat) (l : List (Doc α))
    (hnd : (l.map Doc.oid).Nodup) (h1 : chunk ≠ 0) :
    List.Perm
      (l.filter fun d =>
        decide (d.oid ∉ (mongoLimit chunk (sortByKey key l)).map Doc.oid))
      ((sortByKey key l).drop chunk) := by
  rw [mongoLimit, if_neg h1]
  have h2 := (sortByKey_perm key l).symm.filter
    (fun d => decide (d.oid ∉ ((sortByKey key l).take chunk).map Doc.oid))
  rw [filter_sorted_drop key chunk l hnd] at h2
  exact h2

/-- Every evicted document has a key at most that of every kept document. -/
theorem evicted_le_dropped (key : Doc α → Int) (chunk : Nat) (l : List (Doc α)) :
    ∀ d ∈ (sortByKey key l).take chunk, ∀ e ∈ (sortByKey key l).drop chunk,
      key d ≤ key e := by
  have hp := sortByKey_pairwise key l
  rw [← List.take_append_drop chunk (sortByKey key l), List.pairwise_append] at hp
  exact hp.2.2

/-- Shape of a capped insert when the store is at or over capacity:
delete-by-id of the chunk of smallest keys, then append the new document. -/
theorem insertWithEviction_docs_full (key : Doc α → Int) (cap chunk : Nat)
    (x : α) (c : Coll α) (h : cap ≤ countDocuments c) :
    (insertWithEviction cap chunk key x c).docs
      = (c.docs.filter fun d =>
          decide (d.oid ∉ (mongoLimit chunk (sortByKey key c.docs)).map Doc.oid))
        ++ [⟨c.nextOid, x⟩] := by
  unfold insertWithEviction
  rw [if_pos h]
  rfl

/-- Shape of a capped insert when the store is below capacity: plain append. -/
theorem insertWithEviction_docs_not_full (key : Doc α → Int) (cap chunk : Nat)
    (x : α) (c : Coll α) (h : ¬ cap ≤ countDocuments c) :
    (insertWithEviction cap chunk key x c).docs = c.docs ++ [⟨c.nextOid, x⟩] := by
  unfold insertWithEviction
  rw [if_neg h]
  rfl

/-- Transaction fixture: logical id `ident`, start and end time `st`. -/
def txn (ident : String) (st : Int) : Transaction :=
  { id := ident, start := st, «end» := st, receiver := ["r"], sender := "s" }

/-- State after POSTing T1, T2, T3 (start times 1, 2, 3) to a fresh
deployment: the transaction store is exactly at its capacity of 3. -/
def txState3 : AppState :=
  create_transaction (txn "T3" 3)
    (create_transaction (txn "T2" 2) (create_transaction (txn "T1" 1) initState))

/-- State after additionally POSTing T4 (start time 4): the insert that
triggers eviction of the oldest transaction. -/
def txState4 : AppState :=
  create_transaction (txn "T4" 4) txState3

/-- C1: when occupancy is at least capacity, Insert removes exactly the
`chunk` resident records with the smallest ordering-field value (the leading
chunk of an ascending stable sort) before appending the new record: the
evicted chunk has size `chunk`, consists of resident records, every evicted
record's key is at most every surviving record's key, and afterwards the
store holds exactly the non-evicted records followed by the new one.  In the
concrete scenario (transactions, capacity 3, chunk 1), inserting T1..T4 with
start times 1,2,3,4 leaves exactly T2, T3, T4 with T1 gone. -/
theorem C1_eviction_removes_smallest :
    (∀ (α : Type) (key : Doc α → Int) (cap chunk : Nat) (x : α) (c : Coll α),
      (c.docs.map Doc.oid).Nodup → 1 ≤ chunk → chunk ≤ cap →
      cap ≤ countDocuments c →
      ∃ E : List (Doc α),
        E = mongoLimit chunk (sortByKey key c.docs) ∧
        E.length = chunk ∧
        (∀ d ∈ E, d ∈ c.docs) ∧
        (∀ d ∈ E, ∀ e ∈ c.docs, e.oid ∉ E.map Doc.oid → key d ≤ key e) ∧
        (insertWithEviction cap chunk key x c).docs
          = (c.docs.filter fun d => decide (d.oid ∉ E.map Doc.oid))
            ++ [⟨c.nextOid, x⟩]) ∧
    (txState4.transactions.docs.map (fun d => d.body.id) = ["T2", "T3", "T4"] ∧
     txState4.transactions.docs.filter (fun d => d.body.id == "T1") = [] ∧
     countDocuments txState4.transactions = 3) := by
  constructor
  · intro α key cap chunk x c hnd h1 h2 h3
    have hlen : (sortByKey key c.docs).length = c.docs.length :=
      (sortByKey_perm key c.docs).length_eq
    have hElim : mongoLimit chunk (sortByKey key c.docs)
        = (sortByKey key c.docs).take chunk := by
      rw [mongoLimit, if_neg (by omega)]
    refine ⟨mongoLimit chunk (sortByKey key c.docs), rfl, ?_, ?_, ?_, ?_⟩
    · rw [hElim, List.length_take, hlen]
      unfold countDocuments at h3
      omega
    · intro d hd
      rw [hElim] at hd
      exact (sortByKey_perm key c.docs).mem_iff.mp (List.take_subset _ _ hd)
    · intro d hd e he hoid
      rw [hElim] at hd hoid
      have he' : e ∈ (sortByKey key c.docs).take chunk
          ∨ e ∈ (sortByKey key c.docs).drop chunk := by
        rw [← List.mem_append, List.take_append_drop]
        exact (sortByKey_perm key c.docs).mem_iff.mpr he
      rcases he' with he' | he'
      · exact absurd (List.mem_map_of_mem Doc.oid he') hoid
      · exact evicted_le_dropped key chunk c.docs d hd e he'
    · exact insertWithEviction_docs_full key cap chunk x c h3
  · exact ⟨by decide, by decide, by decide⟩

/-- C1 witness: the general statement instantiated at the transaction store
holding T1, T2, T3 at capacity 3 with chunk 1, inserting T4. -/
theorem C1_eviction_removes_smallest_witness :
    ∃ E : List (Doc Transaction),
      E = mongoLimit 1 (sortByKey (fun d => d.body.start) txState3.transactions.docs) ∧
      E.length = 1 ∧
      (∀ d ∈ E, d ∈ txState3.transactions.docs) ∧
      (∀ d ∈ E, ∀ e ∈ txState3.transactions.docs,
        e.oid ∉ E.map Doc.oid → d.body.start ≤ e.body.start) ∧
      (insertWithEviction 3 1 (fun d => d.body.start) (txn "T4" 4)
          txState3.transactions).docs
        = (txState3.transactions.docs.filter fun d =>
            decide (d.oid ∉ E.map Doc.oid))
          ++ [⟨txState3.transactions.nextOid, txn "T4" 4⟩] :=
  C1_eviction_removes_smallest.1 Transaction (fun d => d.body.start) 3 1
    (txn "T4" 4) txState3.transactions (by decide) (by decide) (by decide)
    (by decide)

/-- C2: sequential Insert preserves the occupancy-at-most-capacity invariant:
starting from a store with occupancy at most `cap`, with a positive eviction
chunk of at most `cap`, the capped insert (eviction, when triggered, strictly
preceding the insertion) again leaves occupancy at most `cap`. -/
theorem C2_capacity_invariant (α : Type) (key : Doc α → Int) (cap chunk : Nat)
    (x : α) (c : Coll α) (hnd : (c.docs.map Doc.oid).Nodup)
    (h1 : 1 ≤ chunk) (h2 : chunk ≤ cap) (h3 : countDocuments c ≤ cap) :
    countDocuments (insertWithEviction cap chunk key x c) ≤ cap := by
  by_cases hfull : cap ≤ countDocuments c
  · have hdocs := insertWithEviction_docs_full key cap chunk x c hfull
    have hk := (kept_perm key chunk c.docs hnd (by omega)).length_eq
    rw [List.length_drop, (sortByKey_perm key c.docs).length_eq] at hk
    unfold countDocuments at *
    rw [hdocs, List.length_append]
    simp only [List.length_singleton]
    omega
  · have hdocs := insertWithEviction_docs_not_full key cap chunk x c hfull
    unfold countDocuments at *
    rw [hdocs, List.length_append]
    simp only [List.length_singleton]
    omega

/-- C2 witness: inserting T4 into the transaction store already at its
capacity of 3 leaves occupancy at most 3. -/
theorem C2_capacity_invariant_witness :
    countDocuments (insertWithEviction 3 1 (fun d : Doc Transaction => d.body.start)
      (txn "T4" 4) txState3.transactions) ≤ 3 :=
  C2_capacity_invariant Transaction (fun d => d.body.start) 3 1 (txn "T4" 4)
    txState3.transactions (by decide) (by decide) (by decide) (by decide)

/-- C3: `GET /transactions/\x7bid\x7d` returns 404 exactly when no resident
transaction has the requested logical id; on success the response is the
first matching resident transaction with exactly the resident steps whose
`transaction` field equals the id attached, and in particular a matching
transaction with zero matching steps yields a response with an empty step
list rather than 404. -/
theorem C3_get_transaction_with_steps (i : String) (s : AppState) :
    (get_transaction i s = .error .notFound ↔
      ¬ ∃ d ∈ s.transactions.docs, d.body.id = i) ∧
    (∀ v, get_transaction i s = .ok v →
      (∃ d ∈ s.transactions.docs, d.body.id = i ∧ v.transaction = d.body) ∧
      v.steps = listStepsByTransaction i s) ∧
    ((∃ d ∈ s.transactions.docs, d.body.id = i) →
      ∃ v, get_transaction i s = .ok v ∧ v.steps = listStepsByTransaction i s) := by
  cases h : s.transactions.docs.find? (fun d => d.body.id == i) with
  | none =>
    have hnone := List.find?_eq_none.mp h
    have hgt : get_transaction i s = .error .notFound := by
      unfold get_transaction findOne
      rw [h]
    refine ⟨?_, ?_, ?_⟩
    · rw [hgt]
      refine iff_of_true rfl ?_
      rintro ⟨d, hd, hid⟩
      exact hnone d hd (beq_iff_eq.mpr hid)
    · intro v hv
      rw [hgt] at hv
      exact Except.noConfusion hv
    · rintro ⟨d, hd, hid⟩
      exact absurd (beq_iff_eq.mpr hid) (hnone d hd)
  | some d =>
    have hmem := List.mem_of_find?_eq_some h
    have hpa := List.find?_some h
    have hid : d.body.id = i := beq_iff_eq.mp hpa
    have hgt : get_transaction i s = .ok ⟨d.body, listStepsByTransaction i s⟩ := by
      unfold get_transaction findOne
      rw [h]
    refine ⟨?_, ?_, ?_⟩
    · rw [hgt]
      refine iff_of_false (fun hh => Except.noConfusion hh) ?_
      intro hn
      exact hn ⟨d, hmem, hid⟩
    · intro v hv
      rw [hgt] at hv
      injection hv with hv'
      subst hv'
      exact ⟨⟨d, hmem, hid, rfl⟩, rfl⟩
    · intro _
      exact ⟨⟨d.body, listStepsByTransaction i s⟩, hgt, rfl⟩

/-- C3 witness: T2 is resident in the post-eviction state and has no steps,
so the lookup succeeds with an empty step list. -/
theorem C3_get_transaction_with_steps_witness :
    ∃ v, get_transaction "T2" txState4 = .ok v ∧
      v.steps = listStepsByTransaction "T2" txState4 :=
  (C3_get_transaction_with_steps "T2" txState4).2.2 (by decide)

/-- C5: `GET /transactions/\x7bid\x7d/snapshots` returns 404 exactly when no
resident snapshot has `transaction` equal to the id, and otherwise returns
exactly the matching resident snapshots (a non-empty list): the endpoint
reinterprets the store's empty-is-success filter result as absence. -/
theorem C5_snapshots_empty_is_notFound (i : String) (s : AppState) :
    (get_snapshots_for_transaction i s = .error .notFound ↔
      ¬ ∃ d ∈ s.snapshots.docs, d.body.transaction = i) ∧
    (∀ l, get_snapshots_for_transaction i s = .ok l →
      l = (s.snapshots.docs.filter fun d => d.body.transaction == i).map Doc.body ∧
      l ≠ []) := by
  simp only [get_snapshots_for_transaction]
  split
  next h =>
    refine ⟨iff_of_true rfl ?_, ?_⟩
    · rintro ⟨d, hd, ht⟩
      rw [List.isEmpty_iff, List.map_eq_nil_iff, List.filter_eq_nil_iff] at h
      exact h d hd (beq_iff_eq.mpr ht)
    · intro l hl
      exact Except.noConfusion hl
  next h =>
    refine ⟨iff_of_false (fun hh => Except.noConfusion hh) ?_, ?_⟩
    · intro hn
      apply h
      rw [List.isEmpty_iff, List.map_eq_nil_iff, List.filter_eq_nil_iff]
      intro d hd hbeq
      exact hn ⟨d, hd, beq_iff_eq.mp hbeq⟩
    · intro l hl
      injection hl with hl'
      refine ⟨hl'.symm, ?_⟩
      rw [← hl']
      intro hnil
      exact h (by rw [List.isEmpty_iff]; exact hnil)

/-- C5 witness: a fresh deployment has no snapshot for transaction "zzz", so
the endpoint answers 404. -/
theorem C5_snapshots_empty_is_notFound_witness :
    get_snapshots_for_transaction "zzz" initState = .error .notFound :=
  (C5_snapshots_empty_is_notFound "zzz" initState).1.mpr (by decide)

/-- Step fixture referencing transaction T1. -/
def step1 : Step :=
  { id := "S1", topic := "top", node := ⟨"nt", "nn"⟩, transaction := "T1",
    createdAt := 1, snapshotId := "SN1" }

/-- State reached by POSTing T1, then a step referencing T1, then T2, T3, T4:
the last insert evicts T1 from the transaction store while the step store is
untouched. -/
def orphanState : AppState :=
  create_transaction (txn "T4" 4)
    (create_transaction (txn "T3" 3)
      (create_transaction (txn "T2" 2)
        (create_step step1 (create_transaction (txn "T1" 1) initState))))

/-- C6: eviction does not cascade across collections: inserting a
transaction mutates only the transaction store (steps, snapshots and logs
are untouched, and the steps-by-transaction listing is unchanged), and in
the concrete scenario the step referencing the evicted T1 is still resident
unchanged and is still returned when listing steps for transaction T1. -/
theorem C6_eviction_noncascading :
    (∀ (t : Transaction) (s : AppState),
      (create_transaction t s).steps = s.steps ∧
      (create_transaction t s).snapshots = s.snapshots ∧
      (create_transaction t s).logs = s.logs ∧
      ∀ x, listStepsByTransaction x (create_transaction t s)
        = listStepsByTransaction x s) ∧
    (orphanState.transactions.docs.filter (fun d => d.body.id == "T1") = [] ∧
     orphanState.steps.docs = [⟨0, step1⟩] ∧
     listStepsByTransaction "T1" orphanState = [step1]) := by
  constructor
  · intro t s
    exact ⟨rfl, rfl, rfl, fun _ => rfl⟩
  · exact ⟨by decide, by decide, by decide⟩

/-- C7: `DELETE /delete` with a collection name outside the four known
collections answers 400 InvalidArgument and leaves the whole state
unchanged. -/
theorem C7_unknown_collection_rejected (n : Nat) (name : String) (s : AppState)
    (h1 : name ≠ "snapshots") (h2 : name ≠ "steps")
    (h3 : name ≠ "transactions") (h4 : name ≠ "logs") :
    delete_entries n name s = (.error .invalidArgument, s) := by
  unfold delete_entries
  rw [if_neg h1, if_neg h2, if_neg h3, if_neg h4]

/-- C7 witness: deleting from collection "widgets" is rejected with no
mutation. -/
theorem C7_unknown_collection_rejected_witness :
    delete_entries 2 "widgets" txState4 = (.error .invalidArgument, txState4) :=
  C7_unknown_collection_rejected 2 "widgets" txState4 (by decide) (by decide)
    (by decide) (by decide)

deriving instance DecidableEq for Except

/-- Log fixture. -/
def logRec (ident : String) : Log :=
  ⟨ident⟩

/-- State after POSTing five logs to a fresh deployment. -/
def log5State : AppState :=
  create_log (logRec "L5")
    (create_log (logRec "L4")
      (create_log (logRec "L3")
        (create_log (logRec "L2") (create_log (logRec "L1") initState))))

/-- Bulk deletion of a positive number of entries: `find().limit(n)` with
`n ≥ 1` selects the first `n` documents in natural order, so the collection
keeps exactly the rest. -/
theorem deleteFirstN_eq (n : Nat) (c : Coll α)
    (hnd : (c.docs.map Doc.oid).Nodup) (h1 : n ≠ 0) :
    deleteFirstN n c
      = (c.docs.length - (c.docs.drop n).length, ⟨c.docs.drop n, c.nextOid⟩) := by
  have hlim : mongoLimit n c.docs = c.docs.take n := by
    rw [mongoLimit, if_neg h1]
  have hkept : (c.docs.filter fun d => decide (d.oid ∉ (c.docs.take n).map Doc.oid))
      = c.docs.drop n := by
    have h := filter_notMem_oids_append (c.docs.take n) (c.docs.drop n)
      (by rw [List.take_append_drop]; exact hnd)
    rw [List.take_append_drop] at h
    exact h
  unfold deleteFirstN deleteByIds
  simp only [hlim, hkept]

/-- Bulk deletion with argument 0: `limit(0)` is "no limit", so the whole
collection is selected and deleted. -/
theorem deleteFirstN_zero (c : Coll α) :
    deleteFirstN 0 c = (c.docs.length, ⟨[], c.nextOid⟩) := by
  have hkept : (c.docs.filter fun d => decide (d.oid ∉ c.docs.map Doc.oid)) = [] := by
    rw [List.filter_eq_nil_iff]
    intro a ha
    simp only [decide_eq_true_eq, not_not]
    exact List.mem_map_of_mem Doc.oid ha
  have hlim : mongoLimit 0 c.docs = c.docs := by
    rw [mongoLimit, if_pos rfl]
  unfold deleteFirstN deleteByIds
  simp only [hlim, hkept, List.length_nil, Nat.sub_zero]

/-- C4 counterexample: the claim's range "for every n ≥ 0" fails at n = 0,
where `find().limit(0)` is MongoDB for "no limit": on a 5-entry log store,
`DELETE /delete?number_of_entries=0&collection_name=logs` reports 5 entries
deleted and empties the store instead of removing at most 0 records. -/
theorem C4_deleteMany_zero_counterexample :
    (delete_entries 0 "logs" log5State).1 = .ok 5 ∧
    (delete_entries 0 "logs" log5State).2.logs.docs = [] := by
  constructor
  · decide
  · decide

/-- C4 amended: for every n ≥ 1 (not n ≥ 0: n = 0 means "no limit" and
deletes everything, see the counterexample), DeleteMany(n) removes exactly
min(n, occupancy) resident records and reports that count, so on a store
with fewer than n records it removes all of them and reports the true
smaller count; on a 5-entry log store, deleting 2 reports 2 deleted and
leaves 3 resident. -/
theorem C4_deleteMany_amended :
    (∀ (α : Type) (n : Nat) (c : Coll α),
      (c.docs.map Doc.oid).Nodup → 1 ≤ n →
      (deleteFirstN n c).1 = min n c.docs.length ∧
      (deleteFirstN n c).2.docs.length
        = c.docs.length - min n c.docs.length) ∧
    ((delete_entries 2 "logs" log5State).1 = .ok 2 ∧
     (delete_entries 2 "logs" log5State).2.logs.docs.length = 3) := by
  constructor
  · intro α n c hnd h1
    rw [deleteFirstN_eq n c hnd (by omega)]
    rw [List.length_drop]
    constructor
    · show c.docs.length - (c.docs.length - n) = min n c.docs.length
      omega
    · show c.docs.length - n = c.docs.length - min n c.docs.length
      omega
  · exact ⟨by decide, by decide⟩

/-- C4 witness: the general statement instantiated at n = 2 on the 5-entry
log store. -/
theorem C4_deleteMany_amended_witness :
    (deleteFirstN 2 log5State.logs).1 = min 2 log5State.logs.docs.length ∧
    (deleteFirstN 2 log5State.logs).2.docs.length
      = log5State.logs.docs.length - min 2 log5State.logs.docs.length :=
  C4_deleteMany_amended.1 Log 2 log5State.logs (by decide) (by decide)

/-- C8 counterexample: `GET /transactions?count=-1&offset=0` does not error:
pymongo's `limit` accepts a negative argument (at most one document here),
so the endpoint returns a record sequence instead of any error. -/
theorem C8_negative_count_counterexample :
    get_all_transactions (-1) 0 txState4 = .ok [⟨txn "T2" 2, []⟩] := by
  decide

/-- C8 amended: a negative `offset` makes the pymongo `skip` call raise
`ValueError`, an exception the endpoint does not catch (surfaced as a 500
internal error, not as a 400/422 InvalidArgument); a negative `count`,
however, is accepted by `limit` and the listing succeeds with a record
sequence of at most `|count|` records (all remaining records for
`count = 0`). -/
theorem C8_paging_errors_amended :
    (∀ (count offset : Int) (s : AppState), offset < 0 →
      get_all_transactions count offset s = .error .valueError) ∧
    (∀ (count offset : Int) (s : AppState), 0 ≤ offset →
      ∃ l : List TransactionWithSteps,
        get_all_transactions count offset s = .ok l ∧
        l.length ≤ (if count = 0 then (s.transactions.docs.drop offset.natAbs).length
          else count.natAbs)) := by
  constructor
  · intro count offset s h
    unfold get_all_transactions
    rw [if_pos h]
  · intro count offset s h
    unfold get_all_transactions
    rw [if_neg (not_lt.mpr h)]
    refine ⟨_, rfl, ?_⟩
    rw [List.length_map]
    unfold mongoLimitInt
    by_cases hc : count = 0
    · rw [if_pos hc, if_pos hc]
    · rw [if_neg hc, if_neg hc, List.length_take]
      exact min_le_left _ _

/-- C8 witness: a listing with offset -2 on a fresh deployment surfaces the
driver ValueError. -/
theorem C8_paging_errors_amended_witness :
    get_all_transactions 10 (-2) initState = .error .valueError :=
  C8_paging_errors_amended.1 10 (-2) initState (by decide)

/-- State after POSTing transactions with logical ids dup, T2, T3 (start
times 1, 2, 3): the transaction store is exactly at its capacity of 3. -/
def dupState : AppState :=
  create_transaction (txn "T3" 3)
    (create_transaction (txn "T2" 2) (create_transaction (txn "dup" 1) initState))

/-- C9 counterexample: with the transaction store at capacity, inserting a
record whose logical id "dup" duplicates the resident oldest record evicts
that resident duplicate, so afterwards only one record with id "dup" is
resident — the claim's "afterwards both records are resident" fails. -/
theorem C9_duplicate_evicted_counterexample :
    dupState.transactions.docs
      = [⟨0, txn "dup" 1⟩, ⟨1, txn "T2" 2⟩, ⟨2, txn "T3" 3⟩] ∧
    (create_transaction (txn "dup" 4) dupState).transactions.docs
      = [⟨1, txn "T2" 2⟩, ⟨2, txn "T3" 3⟩, ⟨3, txn "dup" 4⟩] ∧
    ((create_transaction (txn "dup" 4) dupState).transactions.docs.filter
      (fun d => d.body.id == "dup")).length = 1 := by
  refine ⟨by decide, by decide, by decide⟩

/-- C9 amended: for every store, Insert enforces no uniqueness on the
logical id — inserting a record whose id equals a resident record's id
always succeeds, and, provided the insert's capacity eviction does not
remove the pre-existing record (it never runs below capacity, and at
capacity it removes only the chunk of smallest ordering-field values),
both records are resident afterwards and FindById on that id returns one
of the resident duplicates rather than failing. -/
theorem C9_duplicate_ids_amended (α : Type) (key : Doc α → Int)
    (cap chunk : Nat) (idOf : α → String) (x : α) (c : Coll α) (d : Doc α)
    (hd : d ∈ c.docs) (hid : idOf d.body = idOf x)
    (hsurv : cap ≤ countDocuments c →
      d.oid ∉ (mongoLimit chunk (sortByKey key c.docs)).map Doc.oid) :
    d ∈ (insertWithEviction cap chunk key x c).docs ∧
    (⟨c.nextOid, x⟩ : Doc α) ∈ (insertWithEviction cap chunk key x c).docs ∧
    ∃ e, findOne (fun b => idOf b == idOf x) (insertWithEviction cap chunk key x c)
        = some e ∧
      e ∈ (insertWithEviction cap chunk key x c).docs ∧ idOf e.body = idOf x := by
  have hmem : d ∈ (insertWithEviction cap chunk key x c).docs := by
    by_cases hfull : cap ≤ countDocuments c
    · rw [insertWithEviction_docs_full key cap chunk x c hfull]
      refine List.mem_append_left _ ?_
      rw [List.mem_filter]
      exact ⟨hd, decide_eq_true (hsurv hfull)⟩
    · rw [insertWithEviction_docs_not_full key cap chunk x c hfull]
      exact List.mem_append_left _ hd
  have hnew : (⟨c.nextOid, x⟩ : Doc α) ∈ (insertWithEviction cap chunk key x c).docs := by
    by_cases hfull : cap ≤ countDocuments c
    · rw [insertWithEviction_docs_full key cap chunk x c hfull]
      exact List.mem_append_right _ (List.mem_singleton.mpr rfl)
    · rw [insertWithEviction_docs_not_full key cap chunk x c hfull]
      exact List.mem_append_right _ (List.mem_singleton.mpr rfl)
  refine ⟨hmem, hnew, ?_⟩
  cases hf : (insertWithEviction cap chunk key x c).docs.find?
      (fun e => idOf e.body == idOf x) with
  | none =>
    exact absurd (beq_iff_eq.mpr hid) (List.find?_eq_none.mp hf d hmem)
  | some e =>
    have hpe := List.find?_some hf
    refine ⟨e, ?_, List.mem_of_find?_eq_some hf, beq_iff_eq.mp hpe⟩
    unfold findOne
    exact hf

/-- State after POSTing transactions T1, dup, T3 with start times 1, 2, 3:
the store is exactly at its capacity of 3, and the record with id "dup" is
not the oldest, so the next insert's eviction removes T1 and not it. -/
def dupMidState : AppState :=
  create_transaction (txn "T3" 3)
    (create_transaction (txn "dup" 2) (create_transaction (txn "T1" 1) initState))

/-- C9 witness: inserting a fourth transaction with the duplicate id "dup"
into the at-capacity store evicts T1 (the smallest start time) and not the
resident duplicate, keeps both "dup" records resident, and the id lookup
succeeds. -/
theorem C9_duplicate_ids_amended_witness :
    (⟨1, txn "dup" 2⟩ : Doc Transaction)
      ∈ (insertWithEviction 3 1 (fun e => e.body.start) (txn "dup" 4)
          dupMidState.transactions).docs ∧
    (⟨dupMidState.transactions.nextOid, txn "dup" 4⟩ : Doc Transaction)
      ∈ (insertWithEviction 3 1 (fun e => e.body.start) (txn "dup" 4)
          dupMidState.transactions).docs ∧
    ∃ e, findOne (fun b => Transaction.id b == Transaction.id (txn "dup" 4))
        (insertWithEviction 3 1 (fun e => e.body.start) (txn "dup" 4)
          dupMidState.transactions) = some e ∧
      e ∈ (insertWithEviction 3 1 (fun e => e.body.start) (txn "dup" 4)
          dupMidState.transactions).docs ∧
      Transaction.id e.body = Transaction.id (txn "dup" 4) :=
  C9_duplicate_ids_amended Transaction (fun e => e.body.start) 3 1 Transaction.id
    (txn "dup" 4) dupMidState.transactions ⟨1, txn "dup" 2⟩ (by decide) (by decide)
    (by decide)

/-- C10: `DELETE /delete?number_of_entries=0` on any of the four valid
collection names deletes every resident record of that collection
(`limit(0)` is MongoDB for "no limit") and reports the full resident count,
rather than deleting zero records. -/
theorem C10_delete_zero_deletes_all (s : AppState) :
    ((delete_entries 0 "snapshots" s).1 = .ok (countDocuments s.snapshots) ∧
     (delete_entries 0 "snapshots" s).2.snapshots.docs = []) ∧
    ((delete_entries 0 "steps" s).1 = .ok (countDocuments s.steps) ∧
     (delete_entries 0 "steps" s).2.steps.docs = []) ∧
    ((delete_entries 0 "transactions" s).1 = .ok (countDocuments s.transactions) ∧
     (delete_entries 0 "transactions" s).2.transactions.docs = []) ∧
    ((delete_entries 0 "logs" s).1 = .ok (countDocuments s.logs) ∧
     (delete_entries 0 "logs" s).2.logs.docs = []) := by
  have h21 : ("steps" : String) ≠ "snapshots" := by decide
  have h31 : ("transactions" : String) ≠ "snapshots" := by decide
  have h32 : ("transactions" : String) ≠ "steps" := by decide
  have h41 : ("logs" : String) ≠ "snapshots" := by decide
  have h42 : ("logs" : String) ≠ "steps" := by decide
  have h43 : ("logs" : String) ≠ "transactions" := by decide
  refine ⟨⟨?_, ?_⟩, ⟨?_, ?_⟩, ⟨?_, ?_⟩, ⟨?_, ?_⟩⟩
  · unfold delete_entries
    rw [if_pos rfl, deleteFirstN_zero]
    rfl
  · unfold delete_entries
    rw [if_pos rfl, deleteFirstN_zero]
  · unfold delete_entries
    rw [if_neg h21, if_pos rfl, deleteFirstN_zero]
    rfl
  · unfold delete_entries
    rw [if_neg h21, if_pos rfl, deleteFirstN_zero]
  · unfold delete_entries
    rw [if_neg h31, if_neg h32, if_pos rfl, deleteFirstN_zero]
    rfl
  · unfold delete_entries
    rw [if_neg h31, if_neg h32, if_pos rfl, deleteFirstN_zero]
  · unfold delete_entries
    rw [if_neg h41, if_neg h42, if_neg h43, if_pos rfl, deleteFirstN_zero]
    rfl
  · unfold delete_entries
    rw [if_neg h41, if_neg h42, if_neg h43, if_pos rfl, deleteFirstN_zero]

/-- C6 witness: inserting a transaction into a fresh deployment leaves the
step store untouched. -/
theorem C6_eviction_noncascading_witness :
    (create_transaction (txn "T9" 9) initState).steps = initState.steps :=
  (C6_eviction_noncascading.1 (txn "T9" 9) initState).1

/-- C10 witness: deleting 0 entries from the 5-entry log store reports all
5 resident logs deleted. -/
theorem C10_delete_zero_deletes_all_witness :
    (delete_entries 0 "logs" log5State).1 = .ok (countDocuments log5State.logs) :=
  (C10_delete_zero_deletes_all log5State).2.2.2.1
